import Mathlib

/-!
Verification of the de-identification engine of the `ai-privacy-app`
repository (`deidentify_data` in `bin/app copy.py`).

The embedding models a pandas `DataFrame` as a list of column names plus a
list of rows, each row a list of dynamically-typed scalar values.  Fallible
pandas operations (column access on a missing column raises `KeyError`,
arithmetic on a value of the wrong dynamic type raises `TypeError`) are
modelled with `Except`.  The spec's `SchemaError` taxonomy entry corresponds
to the `keyError` constructor (pandas raises `KeyError` when a configured
column is absent), and its `ValueError` entry to `typeError`.
-/

/-- A dynamically-typed scalar value held in a cell of the table:
either a Python `int` or a Python `str`. -/
inductive Value where
  | intV : Int → Value
  | strV : String → Value
deriving DecidableEq, Repr

/-- Python's `str()` applied to a cell value. -/
def pyStr : Value → String
  | .intV i => toString i
  | .strV s => s

/-- Errors the pipeline can raise: `keyError c` models pandas `KeyError(c)`
(the spec's `SchemaError`: a configured column absent from the schema);
`typeError` models `TypeError`/`ValueError` (a value incompatible with the
configured generalization, the spec's `ValueError`). -/
inductive PdError where
  | keyError : String → PdError
  | typeError : PdError
deriving DecidableEq, Repr

/-- A pandas `DataFrame`: ordered column names and ordered rows.  Each row is
positionally aligned with `cols`. -/
structure Frame where
  cols : List String
  rows : List (List Value)
deriving DecidableEq, Repr

/-- Well-formedness: the table is rectangular (every row has one cell per
column), as every real `DataFrame` is. -/
def Frame.WF (f : Frame) : Prop :=
  ∀ r ∈ f.rows, r.length = f.cols.length

instance (f : Frame) : Decidable f.WF := by
  unfold Frame.WF; infer_instance

/-- Column membership test (`c in df.columns`). -/
def Frame.hasCol (f : Frame) (c : String) : Bool :=
  decide (c ∈ f.cols)

/-- Position of column `c` (first occurrence), `cols.length` when absent. -/
def Frame.colIdx (f : Frame) (c : String) : Nat :=
  f.cols.findIdx (fun x => decide (x = c))

/-- The values of column `c`, row by row (`df[c]` as a series). -/
def Frame.col (f : Frame) (c : String) : List Value :=
  f.rows.map (fun r => r.getD (f.colIdx c) (.strV ""))

/-- Eager, first-error-wins effectful map: the semantics of applying a
fallible per-element function (`Series.apply` / element-wise arithmetic),
where the first raising element aborts the whole operation. -/
def mapExcept (g : α → Except PdError β) : List α → Except PdError (List β)
  | [] => .ok []
  | a :: l =>
    match g a with
    | .error e => .error e
    | .ok b =>
      match mapExcept g l with
      | .error e => .error e
      | .ok bs => .ok (b :: bs)

/-- `df[c] = df[c].apply(g)` / vectorised transform of column `c`:
raises `KeyError c` when the column is absent, otherwise rewrites the
column cell-by-cell with `g` (which may itself raise). -/
def applyCol (f : Frame) (c : String) (g : Value → Except PdError Value) :
    Except PdError Frame :=
  if f.hasCol c then
    match mapExcept
        (fun r =>
          match g (r.getD (f.colIdx c) (.strV "")) with
          | .error e => .error e
          | .ok v => .ok (r.set (f.colIdx c) v))
        f.rows with
    | .error e => .error e
    | .ok rows => .ok ⟨f.cols, rows⟩
  else .error (.keyError c)

/-- `df.drop(columns=[c])`: raises `KeyError c` when the column is absent,
otherwise removes the column from the schema and from every row. -/
def dropCol (f : Frame) (c : String) : Except PdError Frame :=
  if f.hasCol c then
    .ok ⟨f.cols.eraseIdx (f.colIdx c), f.rows.map (fun r => r.eraseIdx (f.colIdx c))⟩
  else .error (.keyError c)

/-- `df[c] = v` with a scalar `v`: overwrites the column when present,
appends a new column holding `v` in every row when absent. -/
def setColConst (f : Frame) (c : String) (v : Value) : Frame :=
  if f.hasCol c then
    ⟨f.cols, f.rows.map (fun r => r.set (f.colIdx c) v)⟩
  else
    ⟨f.cols ++ [c], f.rows.map (fun r => r ++ [v])⟩

/-- The grouping key of row `r`: its tuple of values at the columns `cs`
(positions computed against the schema `cols`). -/
def keyTuple (cols cs : List String) (r : List Value) : List Value :=
  cs.map (fun c => r.getD (cols.findIdx (fun x => decide (x = c))) (.strV ""))

/-- Size of the equivalence class of row `r` among `rows`: the number of rows
sharing its grouping key. -/
def classCount (cols cs : List String) (rows : List (List Value)) (r : List Value) : Nat :=
  (rows.filter (fun r2 => decide (keyTuple cols cs r2 = keyTuple cols cs r))).length

/-- `df.groupby(cs)[cs[0]].transform('count')`: for each row, the size of its
equivalence class under the grouping columns `cs`; raises `KeyError` when a
grouping column is absent. -/
def groupCounts (f : Frame) (cs : List String) : Except PdError (List Nat) :=
  if cs.all f.hasCol then
    .ok (f.rows.map (fun r => classCount f.cols cs f.rows r))
  else
    .error (.keyError ((cs.filter (fun c => ! f.hasCol c)).headD ""))

/-!
### SHA-256

A word-for-word embedding of FIPS 180-4 SHA-256 over `Nat`, used to model
`hashlib.sha256(...).hexdigest()`.  Machine 32-bit words are naturals reduced
modulo `2 ^ 32` at every arithmetic step; byte strings are lists of naturals
below 256.  Validated below against the published test vectors for the empty
message and for `"abc"`.
-/

namespace Sha256

/-- UTF-8 encoding of one character (Python's `str.encode()`), as bytes. -/
def utf8Bytes (c : Char) : List Nat :=
  let n := c.toNat
  if n < 0x80 then [n]
  else if n < 0x800 then [0xc0 + n / 0x40, 0x80 + n % 0x40]
  else if n < 0x10000 then
    [0xe0 + n / 0x1000, 0x80 + n / 0x40 % 0x40, 0x80 + n % 0x40]
  else
    [0xf0 + n / 0x40000, 0x80 + n / 0x1000 % 0x40, 0x80 + n / 0x40 % 0x40,
     0x80 + n % 0x40]

/-- UTF-8 bytes of a string. -/
def strBytes (s : String) : List Nat :=
  (s.data.map utf8Bytes).flatten

/-- Right rotation of a 32-bit word. -/
def rotr32 (x n : Nat) : Nat :=
  ((x >>> n) ||| (x <<< (32 - n))) % 4294967296

def smallSigma0 (x : Nat) : Nat := rotr32 x 7 ^^^ rotr32 x 18 ^^^ (x >>> 3)

def smallSigma1 (x : Nat) : Nat := rotr32 x 17 ^^^ rotr32 x 19 ^^^ (x >>> 10)

def bigSigma0 (x : Nat) : Nat := rotr32 x 2 ^^^ rotr32 x 13 ^^^ rotr32 x 22

def bigSigma1 (x : Nat) : Nat := rotr32 x 6 ^^^ rotr32 x 11 ^^^ rotr32 x 25

/-- `Ch(x, y, z)`: bitwise choice; `x ^^^ 0xffffffff` is 32-bit complement. -/
def chFun (x y z : Nat) : Nat := (x &&& y) ^^^ ((x ^^^ 4294967295) &&& z)

def majFun (x y z : Nat) : Nat := (x &&& y) ^^^ (x &&& z) ^^^ (y &&& z)

/-- The 64 round constants `K 0 .. K 63` (FIPS 180-4 §4.2.2, here written in
decimal: `0x428a2f98 = 1116352408` and so on). -/
def roundK : List Nat :=
  [1116352408, 1899447441, 3049323471, 3921009573, 961987163,
   1508970993, 2453635748, 2870763221, 3624381080, 310598401,
   607225278, 1426881987, 1925078388, 2162078206, 2614888103,
   3248222580, 3835390401, 4022224774, 264347078, 604807628,
   770255983, 1249150122, 1555081692, 1996064986, 2554220882,
   2821834349, 2952996808, 3210313671, 3336571891, 3584528711,
   113926993, 338241895, 666307205, 773529912, 1294757372,
   1396182291, 1695183700, 1986661051, 2177026350, 2456956037,
   2730485921, 2820302411, 3259730800, 3345764771, 3516065817,
   3600352804, 4094571909, 275423344, 430227734, 506948616,
   659060556, 883997877, 958139571, 1322822218, 1537002063,
   1747873779, 1955562222, 2024104815, 2227730452, 2361852424,
   2428436474, 2756734187, 3204031479, 3329325298]

/-- The initial hash value `H 0 .. H 7` (FIPS 180-4 §5.3.3, in decimal:
`0x6a09e667 = 1779033703` and so on). -/
def initH : List Nat :=
  [1779033703, 3144134277, 1013904242, 2773480762,
   1359893119, 2600822924, 528734635, 1541459225]

/-- Big-endian 8-byte encoding of the message bit length. -/
def beBytes8 (n : Nat) : List Nat :=
  [n / 2 ^ 56 % 256, n / 2 ^ 48 % 256, n / 2 ^ 40 % 256, n / 2 ^ 32 % 256,
   n / 2 ^ 24 % 256, n / 2 ^ 16 % 256, n / 2 ^ 8 % 256, n % 256]

/-- Merkle-Damgard padding: `0x80`, zeros to 56 mod 64, then the bit length. -/
def pad (msg : List Nat) : List Nat :=
  msg ++ [0x80] ++ List.replicate ((119 - msg.length % 64) % 64) 0 ++
    beBytes8 (msg.length * 8)

/-- Bytes to big-endian 32-bit words (input length a multiple of 4). -/
def bytesToWords : List Nat → List Nat
  | b0 :: b1 :: b2 :: b3 :: rest =>
    (b0 * 16777216 + b1 * 65536 + b2 * 256 + b3) :: bytesToWords rest
  | _ => []

/-- Split a padded word list into 16-word blocks (the padded length is a
multiple of 16 words, so the final catch-all case is never reached on padded
input). -/
def toBlocks : List Nat → List (List Nat)
  | w0 :: w1 :: w2 :: w3 :: w4 :: w5 :: w6 :: w7 ::
    w8 :: w9 :: w10 :: w11 :: w12 :: w13 :: w14 :: w15 :: rest =>
    [w0, w1, w2, w3, w4, w5, w6, w7, w8, w9, w10, w11, w12, w13, w14, w15] ::
      toBlocks rest
  | _ => []

/-- Message schedule: extend the 16 block words to 64. -/
def schedule (block : List Nat) : Array Nat :=
  (List.range 48).foldl
    (fun w i =>
      w.push ((smallSigma1 (w.getD (i + 14) 0) + w.getD (i + 9) 0 +
        smallSigma0 (w.getD (i + 1) 0) + w.getD i 0) % 4294967296))
    block.toArray

/-- One compression round on the state `[a, b, c, d, e, f, g, h]`. -/
def roundStep (w : Array Nat) (st : List Nat) (i : Nat) : List Nat :=
  match st with
  | [a, b, c, d, e, f, g, h] =>
    let t1 := (h + bigSigma1 e + chFun e f g + roundK.getD i 0 + w.getD i 0) %
      4294967296
    let t2 := (bigSigma0 a + majFun a b c) % 4294967296
    [(t1 + t2) % 4294967296, a, b, c, (d + t1) % 4294967296, e, f, g]
  | _ => st

/-- Compress one 512-bit block into the chaining state. -/
def compressBlock (h : List Nat) (block : List Nat) : List Nat :=
  let w := schedule block
  let st := (List.range 64).foldl (roundStep w) h
  (h.zip st).map (fun p => (p.1 + p.2) % 4294967296)

/-- The eight 32-bit digest words of a byte message. -/
def digestWords (msg : List Nat) : List Nat :=
  (toBlocks (bytesToWords (pad msg))).foldl compressBlock initH

/-- Lowercase hexadecimal digit. -/
def hexDigit (n : Nat) : Char :=
  if n < 10 then Char.ofNat (48 + n) else Char.ofNat (87 + n)

/-- Lowercase 8-digit hexadecimal rendering of a 32-bit word. -/
def wordHex (n : Nat) : String :=
  String.mk ((List.range 8).map (fun i => hexDigit (n / 16 ^ (7 - i) % 16)))

end Sha256

/-- `hashlib.sha256(s.encode()).hexdigest()`: the 64-character lowercase
hexadecimal SHA-256 digest of the UTF-8 encoding of `s`. -/
def sha256Hex (s : String) : String :=
  String.join ((Sha256.digestWords (Sha256.strBytes s)).map Sha256.wordHex)

/-!
### The de-identification pipeline (`deidentify_data` in `bin/app copy.py`)
-/

/-- `hash_val` from the source:
`hashlib.sha256((str(val) + salt).encode()).hexdigest()[:12]`. -/
def hash_val (val : Value) (salt : String) : String :=
  (sha256Hex (pyStr val ++ salt)).take 12

/-- Stage B, per cell: `(df_clean['Age'] // 10 * 10).astype(str) + "s"`.
Python `//` is floor division (`Int.fdiv`); a non-integer cell raises. -/
def generalizeAge : Value → Except PdError Value
  | .intV a => .ok (.strV (toString (Int.fdiv a 10 * 10) ++ "s"))
  | .strV _ => .error .typeError

/-- Stage C, per cell: `df_clean['ZIP_Code'].str[:3] + "**"` (first three
characters followed by the mask); a non-string cell raises. -/
def generalizeZip : Value → Except PdError Value
  | .strV s => .ok (.strV (s.take 3 ++ "**"))
  | .intV _ => .error .typeError

/-- Stages A-C of `deidentify_data` on the working copy: hash `Patient_ID`,
drop `Patient_Name`, bin `Age` into decades, mask `ZIP_Code` to a 3-character
prefix. -/
def redactGeneralize (df : Frame) (salt : String) : Except PdError Frame :=
  match applyCol df "Patient_ID" (fun v => .ok (.strV (hash_val v salt))) with
  | .error e => .error e
  | .ok df1 =>
    match dropCol df1 "Patient_Name" with
    | .error e => .error e
    | .ok df2 =>
      match applyCol df2 "Age" generalizeAge with
      | .error e => .error e
      | .ok df3 => applyCol df3 "ZIP_Code" generalizeZip

/-- The frame stage D groups: unchanged when quasi-identifiers were selected,
otherwise extended with the constant `__dummy__ = 1` column. -/
def anonFrame (g : Frame) (cols_to_check : List String) : Frame :=
  if cols_to_check.isEmpty then setColConst g "__dummy__" (.intV 1) else g

/-- The grouping columns stage D uses: the selection itself when non-empty,
otherwise the implicit `['__dummy__']`. -/
def anonCols (cols_to_check : List String) : List String :=
  if cols_to_check.isEmpty then ["__dummy__"] else cols_to_check

/-- `deidentify_data(df, k, salt, cols_to_check)`: the whole pipeline.
Returns the processed frame and the suppression count
`len(df) - len(df_clean)`, or the first raised error. -/
def deidentify_data (df : Frame) (k : Nat) (salt : String)
    (cols_to_check : List String) : Except PdError (Frame × Nat) :=
  match redactGeneralize df salt with
  | .error e => .error e
  | .ok g =>
    let df5 := anonFrame g cols_to_check
    match groupCounts df5 (anonCols cols_to_check) with
    | .error e => .error e
    | .ok counts =>
      let kept := ((df5.rows.zip counts).filter (fun rc => decide (k ≤ rc.2))).map
        Prod.fst
      .ok (⟨df5.cols, kept⟩, df.rows.length - kept.length)

/-!
### Basic lemmas about the embedding
-/

theorem mapExcept_ok_forall2 {α β : Type} {g : α → Except PdError β} :
    ∀ {l : List α} {l2 : List β}, mapExcept g l = .ok l2 →
      List.Forall₂ (fun a b => g a = .ok b) l l2 := by
  intro l
  induction l with
  | nil =>
    intro l2 h
    cases h
    exact List.Forall₂.nil
  | cons a l ih =>
    intro l2 h
    unfold mapExcept at h
    cases hga : g a with
    | error e => rw [hga] at h; cases h
    | ok b =>
      rw [hga] at h
      cases hrest : mapExcept g l with
      | error e => rw [hrest] at h; cases h
      | ok bs =>
        rw [hrest] at h
        cases h
        exact List.Forall₂.cons hga (ih hrest)

theorem forall2_mem_right {α β : Type} {R : α → β → Prop} :
    ∀ {l : List α} {l2 : List β}, List.Forall₂ R l l2 → ∀ b ∈ l2, ∃ a ∈ l, R a b := by
  intro l l2 h
  induction h with
  | nil => intro b hb; cases hb
  | @cons a b l l2 hr _ ih =>
    intro x hx
    rcases List.mem_cons.mp hx with rfl | hx
    · exact ⟨a, List.mem_cons_self a l, hr⟩
    · obtain ⟨a2, ha2, hra2⟩ := ih x hx
      exact ⟨a2, List.mem_cons_of_mem a ha2, hra2⟩

theorem mapExcept_ok_length {α β : Type} {g : α → Except PdError β} {l : List α}
    {l2 : List β} (h : mapExcept g l = .ok l2) : l2.length = l.length :=
  (mapExcept_ok_forall2 h).length_eq.symm

theorem getD_set_self {α : Type} {l : List α} {i : Nat} (h : i < l.length)
    (v d : α) : (l.set i v).getD i d = v := by
  simp [List.getD_eq_getElem?_getD, List.getElem?_set_self h]

theorem getD_concat_length {α : Type} (l : List α) (v d : α) :
    (l ++ [v]).getD l.length d = v := by
  simp [List.getD_eq_getElem?_getD, List.getElem?_concat_length]

theorem hasCol_iff_mem {f : Frame} {c : String} :
    f.hasCol c = true ↔ c ∈ f.cols := by
  simp [Frame.hasCol]

theorem colIdx_lt_length {f : Frame} {c : String} (h : f.hasCol c = true) :
    f.colIdx c < f.cols.length :=
  List.findIdx_lt_length_of_exists ⟨c, hasCol_iff_mem.mp h, by simp⟩

theorem findIdx_concat_self_of_not_mem {c : String} {l : List String}
    (h : ¬ c ∈ l) : (l ++ [c]).findIdx (fun x => decide (x = c)) = l.length := by
  rw [List.findIdx_append]
  have hl : l.findIdx (fun x => decide (x = c)) = l.length :=
    List.findIdx_eq_length.mpr (fun x hx => by
      simp only [decide_eq_false_iff_not]
      exact fun hxc => h (hxc ▸ hx))
  simp [hl, List.findIdx_cons]

/-- Characterization of a successful `applyCol`. -/
theorem applyCol_ok {f f2 : Frame} {c : String} {g : Value → Except PdError Value}
    (h : applyCol f c g = .ok f2) :
    f.hasCol c = true ∧ f2.cols = f.cols ∧
      List.Forall₂
        (fun r r2 => ∃ v, g (r.getD (f.colIdx c) (.strV "")) = .ok v ∧
          r2 = r.set (f.colIdx c) v)
        f.rows f2.rows := by
  unfold applyCol at h
  split at h
  case isFalse => cases h
  case isTrue hc =>
    cases hm : mapExcept
        (fun r =>
          match g (r.getD (f.colIdx c) (.strV "")) with
          | .error e => .error e
          | .ok v => .ok (r.set (f.colIdx c) v))
        f.rows with
    | error e => rw [hm] at h; cases h
    | ok rows =>
      rw [hm] at h
      cases h
      refine ⟨hc, rfl, (mapExcept_ok_forall2 hm).imp ?_⟩
      intro r r2 hr
      cases hgr : g (r.getD (f.colIdx c) (.strV "")) with
      | error e => rw [hgr] at hr; cases hr
      | ok v =>
        rw [hgr] at hr
        cases hr
        exact ⟨v, rfl, rfl⟩

theorem applyCol_ok_length {f f2 : Frame} {c : String}
    {g : Value → Except PdError Value} (h : applyCol f c g = .ok f2) :
    f2.rows.length = f.rows.length :=
  ((applyCol_ok h).2.2.length_eq).symm

theorem applyCol_WF {f f2 : Frame} {c : String} {g : Value → Except PdError Value}
    (h : applyCol f c g = .ok f2) (hwf : f.WF) : f2.WF := by
  obtain ⟨_, hcols, hrel⟩ := applyCol_ok h
  intro r2 hr2
  obtain ⟨r, hr, v, _, hset⟩ := forall2_mem_right hrel r2 hr2
  rw [hcols, hset, List.length_set]
  exact hwf r hr

/-- Characterization of a successful `dropCol`. -/
theorem dropCol_ok {f f2 : Frame} {c : String} (h : dropCol f c = .ok f2) :
    f.hasCol c = true ∧ f2.cols = f.cols.eraseIdx (f.colIdx c) ∧
      f2.rows = f.rows.map (fun r => r.eraseIdx (f.colIdx c)) := by
  unfold dropCol at h
  split at h
  case isTrue hc => cases h; exact ⟨hc, rfl, rfl⟩
  case isFalse => cases h

theorem dropCol_ok_length {f f2 : Frame} {c : String} (h : dropCol f c = .ok f2) :
    f2.rows.length = f.rows.length := by
  rw [(dropCol_ok h).2.2, List.length_map]

theorem dropCol_WF {f f2 : Frame} {c : String} (h : dropCol f c = .ok f2)
    (hwf : f.WF) : f2.WF := by
  obtain ⟨hc, hcols, hrows⟩ := dropCol_ok h
  intro r2 hr2
  rw [hrows] at hr2
  obtain ⟨r, hr, rfl⟩ := List.mem_map.mp hr2
  rw [hcols, List.length_eraseIdx, List.length_eraseIdx, hwf r hr]

theorem setColConst_length (f : Frame) (c : String) (v : Value) :
    (setColConst f c v).rows.length = f.rows.length := by
  unfold setColConst
  split <;> simp

theorem setColConst_WF {f : Frame} (c : String) (v : Value) (hwf : f.WF) :
    (setColConst f c v).WF := by
  unfold setColConst
  split
  · intro r2 hr2
    obtain ⟨r, hr, rfl⟩ := List.mem_map.mp hr2
    simp [hwf r hr]
  · intro r2 hr2
    obtain ⟨r, hr, rfl⟩ := List.mem_map.mp hr2
    simp [hwf r hr]

/-- After `setColConst f c v` every row's grouping key on `[c]` is `[v]`
(for a rectangular frame). -/
theorem setColConst_keyTuple {f : Frame} {c : String} {v : Value} (hwf : f.WF) :
    ∀ r ∈ (setColConst f c v).rows,
      keyTuple (setColConst f c v).cols [c] r = [v] := by
  intro r2 hr2
  unfold setColConst at hr2 ⊢
  by_cases hc : f.hasCol c
  · rw [if_pos hc] at hr2 ⊢
    obtain ⟨r, hr, rfl⟩ := List.mem_map.mp hr2
    have hi : f.colIdx c < r.length := by
      rw [hwf r hr]; exact colIdx_lt_length hc
    simp only [keyTuple, List.map_cons, List.map_nil]
    rw [show f.cols.findIdx (fun x => decide (x = c)) = f.colIdx c from rfl]
    rw [getD_set_self hi]
  · rw [if_neg hc] at hr2 ⊢
    obtain ⟨r, hr, rfl⟩ := List.mem_map.mp hr2
    have hnc : ¬ c ∈ f.cols := fun hm => hc (hasCol_iff_mem.mpr hm)
    simp only [keyTuple, List.map_cons, List.map_nil]
    rw [findIdx_concat_self_of_not_mem hnc, ← hwf r hr, getD_concat_length]

/-- Rows sharing a grouping key have the same class size. -/
theorem classCount_congr {cols cs : List String} {rows : List (List Value)}
    {r r2 : List Value} (h : keyTuple cols cs r2 = keyTuple cols cs r) :
    classCount cols cs rows r2 = classCount cols cs rows r := by
  unfold classCount
  rw [List.filter_congr (fun x _ => by rw [h])]

/-- When every row has the same grouping key, every class is the whole
table. -/
theorem classCount_const {cols cs : List String} {rows : List (List Value)}
    {κ : List Value} (h : ∀ r ∈ rows, keyTuple cols cs r = κ) :
    ∀ r ∈ rows, classCount cols cs rows r = rows.length := by
  intro r hr
  unfold classCount
  rw [List.filter_eq_self.mpr]
  intro r2 hr2
  rw [h r2 hr2, h r hr]
  simp

/-- Every row belongs to its own class. -/
theorem classCount_pos {cols cs : List String} {rows : List (List Value)}
    {r : List Value} (hr : r ∈ rows) : 1 ≤ classCount cols cs rows r := by
  unfold classCount
  have : r ∈ rows.filter
      (fun r2 => decide (keyTuple cols cs r2 = keyTuple cols cs r)) :=
    List.mem_filter.mpr ⟨hr, by simp⟩
  exact List.length_pos.mpr (fun he => by rw [he] at this; cases this)

/-- Filtering rows by a per-row count computed with `zip`/`map` is filtering
by the count function itself. -/
theorem zip_map_filter {α : Type} (l : List α) (f : α → Nat) (p : Nat → Bool) :
    ((l.zip (l.map f)).filter (fun rc => p rc.2)).map Prod.fst =
      l.filter (fun r => p (f r)) := by
  induction l with
  | nil => rfl
  | cons a l ih =>
    simp only [List.map_cons, List.zip_cons_cons, List.filter_cons]
    by_cases hp : p (f a)
    · simp only [hp, if_pos, List.map_cons, ih]
    · simp only [hp, Bool.false_eq_true, if_false, ih]

/-- Characterization of a successful `redactGeneralize`: the schema loses
exactly `Patient_Name`, the row count is preserved, rectangularity is
preserved, and no new column name appears. -/
theorem redactGeneralize_ok {df g : Frame} {salt : String}
    (h : redactGeneralize df salt = .ok g) :
    g.rows.length = df.rows.length ∧ (df.WF → g.WF) ∧
      (∀ c, c ∈ g.cols → c ∈ df.cols) := by
  unfold redactGeneralize at h
  cases h1 : applyCol df "Patient_ID" (fun v => .ok (.strV (hash_val v salt))) with
  | error e => rw [h1] at h; cases h
  | ok df1 =>
    rw [h1] at h
    dsimp only at h
    cases h2 : dropCol df1 "Patient_Name" with
    | error e => rw [h2] at h; cases h
    | ok df2 =>
      rw [h2] at h
      dsimp only at h
      cases h3 : applyCol df2 "Age" generalizeAge with
      | error e => rw [h3] at h; cases h
      | ok df3 =>
        rw [h3] at h
        dsimp only at h
        refine ⟨?_, ?_, ?_⟩
        · rw [applyCol_ok_length h, applyCol_ok_length h3, dropCol_ok_length h2,
            applyCol_ok_length h1]
        · intro hwf
          exact applyCol_WF h (applyCol_WF h3 (dropCol_WF h2 (applyCol_WF h1 hwf)))
        · intro c hc
          rw [(applyCol_ok h).2.1, (applyCol_ok h3).2.1, (dropCol_ok h2).2.1] at hc
          have hc1 : c ∈ df1.cols := (List.eraseIdx_sublist _ _).mem hc
          rw [(applyCol_ok h1).2.1] at hc1
          exact hc1

/-- Characterization of a successful `deidentify_data`: there is a
redacted/generalized intermediate frame `g` such that the output keeps the
schema of stage D's frame and its rows are exactly the rows whose equivalence
class reaches `k`, in order, and the suppression count is the number of input
rows minus the number of output rows. -/
theorem deidentify_ok_spec {df out : Frame} {k n : Nat} {salt : String}
    {cs : List String} (h : deidentify_data df k salt cs = .ok (out, n)) :
    ∃ g, redactGeneralize df salt = .ok g ∧
      out.cols = (anonFrame g cs).cols ∧
      out.rows = (anonFrame g cs).rows.filter
        (fun r => decide (k ≤
          classCount (anonFrame g cs).cols (anonCols cs) (anonFrame g cs).rows r)) ∧
      n = df.rows.length - out.rows.length ∧
      (anonCols cs).all (anonFrame g cs).hasCol = true := by
  unfold deidentify_data at h
  cases hg : redactGeneralize df salt with
  | error e => rw [hg] at h; cases h
  | ok g =>
    rw [hg] at h
    dsimp only at h
    refine ⟨g, rfl, ?_⟩
    cases hgc : groupCounts (anonFrame g cs) (anonCols cs) with
    | error e => rw [hgc] at h; cases h
    | ok counts =>
      rw [hgc] at h
      unfold groupCounts at hgc
      split at hgc
      case isFalse => cases hgc
      case isTrue hall =>
        cases hgc
        cases h
        refine ⟨rfl, ?_, rfl, hall⟩
        dsimp only
        exact zip_map_filter (anonFrame g cs).rows
          (fun r => classCount (anonFrame g cs).cols (anonCols cs)
            (anonFrame g cs).rows r)
          (fun c => decide (k ≤ c))

theorem mapExcept_total {α β : Type} {g : α → Except PdError β} {f : α → β}
    (hg : ∀ a, g a = .ok (f a)) (l : List α) : mapExcept g l = .ok (l.map f) := by
  induction l with
  | nil => rfl
  | cons a l ih =>
    unfold mapExcept
    rw [hg a, ih]
    rfl

theorem forall2_eq_map {α β : Type} {F : α → β} :
    ∀ {l : List α} {l2 : List β}, List.Forall₂ (fun a b => b = F a) l l2 →
      l2 = l.map F := by
  intro l l2 h
  induction h with
  | nil => rfl
  | cons hr _ ih => simp only [List.map_cons, hr, ih]

/-- A total per-cell transform applied through `applyCol` never raises and
rewrites the column in place. -/
theorem applyCol_total {f : Frame} {c : String} (hv : Value → Value)
    (hc : f.hasCol c = true) :
    applyCol f c (fun v => .ok (hv v)) =
      .ok ⟨f.cols,
        f.rows.map (fun r => r.set (f.colIdx c) (hv (r.getD (f.colIdx c) (.strV ""))))⟩ := by
  unfold applyCol
  rw [if_pos hc]
  dsimp only
  have hm : mapExcept
      (fun r => Except.ok (r.set (f.colIdx c) (hv (r.getD (f.colIdx c) (Value.strV "")))))
      f.rows =
      .ok (f.rows.map
        (fun r => r.set (f.colIdx c) (hv (r.getD (f.colIdx c) (Value.strV ""))))) :=
    mapExcept_total (fun r => rfl) f.rows
  rw [hm]

/-- Filtering by class size does not change the class size of a kept row:
all rows sharing its key are kept with it. -/
theorem classCount_filter_self {cols cs : List String} {rows : List (List Value)}
    {k : Nat} {r : List Value} (hr : k ≤ classCount cols cs rows r) :
    classCount cols cs
        (rows.filter (fun r2 => decide (k ≤ classCount cols cs rows r2))) r =
      classCount cols cs rows r := by
  have h1 : classCount cols cs
      (rows.filter (fun r2 => decide (k ≤ classCount cols cs rows r2))) r =
      ((rows.filter (fun r2 => decide (k ≤ classCount cols cs rows r2))).filter
        (fun r2 => decide (keyTuple cols cs r2 = keyTuple cols cs r))).length := rfl
  have h2 : classCount cols cs rows r =
      (rows.filter
        (fun r2 => decide (keyTuple cols cs r2 = keyTuple cols cs r))).length := rfl
  rw [h1, h2, List.filter_filter]
  apply congrArg List.length
  apply List.filter_congr
  intro x hx
  by_cases hk2 : keyTuple cols cs x = keyTuple cols cs r
  · have hcx : classCount cols cs rows x = classCount cols cs rows r :=
      classCount_congr hk2
    simp [hk2, hcx, hr]
  · simp [hk2]

/-- Any per-value map can only merge distinct values, never split them. -/
theorem dedup_length_map_le {α β : Type} [DecidableEq α] [DecidableEq β]
    (f : α → β) (l : List α) : (l.map f).dedup.length ≤ l.dedup.length := by
  induction l with
  | nil => simp
  | cons a l ih =>
    by_cases ha : a ∈ l
    · rw [List.map_cons, List.dedup_cons_of_mem ha,
        List.dedup_cons_of_mem (List.mem_map_of_mem f ha)]
      exact ih
    · rw [List.map_cons, List.dedup_cons_of_not_mem ha]
      by_cases hfa : f a ∈ l.map f
      · rw [List.dedup_cons_of_mem hfa]
        exact Nat.le_succ_of_le ih
      · rw [List.dedup_cons_of_not_mem hfa]
        simpa using Nat.succ_le_succ ih

theorem anonFrame_length (g : Frame) (cs : List String) :
    (anonFrame g cs).rows.length = g.rows.length := by
  unfold anonFrame
  split
  · exact setColConst_length g "__dummy__" (.intV 1)
  · rfl

/-!
### Claim theorems
-/

/-- **C5.** For every input dataset, salt, and selected quasi-identifier set,
running `deidentify_data` with `k = 1` returns a suppression count of 0 and
retains every input record (the output has exactly one record per input
record). -/
theorem deid_k_one_retains_all {df out : Frame} {n : Nat} {salt : String}
    {cs : List String} (h : deidentify_data df 1 salt cs = .ok (out, n)) :
    n = 0 ∧ out.rows.length = df.rows.length := by
  obtain ⟨g, hg, hcols, hrows, hn, hall⟩ := deidentify_ok_spec h
  have hlen : (anonFrame g cs).rows.length = df.rows.length := by
    rw [anonFrame_length, (redactGeneralize_ok hg).1]
  have hfil : out.rows = (anonFrame g cs).rows := by
    rw [hrows, List.filter_eq_self.mpr]
    intro r hr
    simpa using classCount_pos hr
  refine ⟨?_, by rw [hfil, hlen]⟩
  rw [hn, hfil, hlen, Nat.sub_self]

/-- **C4.** For every input dataset, salt, and selected quasi-identifier set,
and every pair of thresholds `k1 ≤ k2`, the suppression count returned by
`deidentify_data` at `k2` is at least the suppression count at `k1`
(monotonicity of suppression in `k`). -/
theorem deid_suppression_monotone {df out1 out2 : Frame} {k1 k2 n1 n2 : Nat}
    {salt : String} {cs : List String} (hk : k1 ≤ k2)
    (h1 : deidentify_data df k1 salt cs = .ok (out1, n1))
    (h2 : deidentify_data df k2 salt cs = .ok (out2, n2)) : n1 ≤ n2 := by
  obtain ⟨g, hg, _, hrows1, hn1, _⟩ := deidentify_ok_spec h1
  obtain ⟨g2, hg2, _, hrows2, hn2, _⟩ := deidentify_ok_spec h2
  rw [hg] at hg2
  cases hg2
  have hsub : out2.rows.length ≤ out1.rows.length := by
    rw [hrows1, hrows2]
    refine (List.monotone_filter_right _ ?_).length_le
    intro r hr
    simp only [decide_eq_true_eq] at hr ⊢
    exact le_trans hk hr
  rw [hn1, hn2]
  exact Nat.sub_le_sub_left hsub df.rows.length

/-- **C6.** If the input schema lacks a configured direct-identifier column
(`Patient_ID` or `Patient_Name`), `deidentify_data` fails with the
missing-column error (pandas `KeyError`, the spec's `SchemaError`) and
produces no output at all — in particular no partially redacted frame. -/
theorem deid_missing_direct_identifier_error {df : Frame} {k : Nat}
    {salt : String} {cs : List String}
    (h : df.hasCol "Patient_ID" = false ∨ df.hasCol "Patient_Name" = false) :
    deidentify_data df k salt cs = .error (.keyError "Patient_ID") ∨
      deidentify_data df k salt cs = .error (.keyError "Patient_Name") := by
  unfold deidentify_data redactGeneralize
  by_cases hpid : df.hasCol "Patient_ID" = true
  · have hpn : df.hasCol "Patient_Name" = false := by
      rcases h with h | h
      · rw [h] at hpid; cases hpid
      · exact h
    rw [applyCol_total (fun v => .strV (hash_val v salt)) hpid]
    dsimp only
    right
    unfold dropCol
    rw [if_neg]
    intro hcontra
    have : df.hasCol "Patient_Name" = true := hcontra
    rw [hpn] at this
    cases this
  · left
    have happ : applyCol df "Patient_ID"
        (fun v => .ok (.strV (hash_val v salt))) = .error (.keyError "Patient_ID") := by
      unfold applyCol
      rw [if_neg hpid]
    rw [happ]

/-- **C8.** For every input dataset and configuration, the records retained
by `deidentify_data` are exactly a stable filter of the (per-index
transformed) records: the output row list is a `filter` of the stage-D row
list — hence an order-preserving sublist, with no record split, merged, or
further altered — and that row list has one row per input row. -/
theorem deid_stable_filter_order {df g out : Frame} {k n : Nat} {salt : String}
    {cs : List String}
    (hg : redactGeneralize df salt = .ok g)
    (h : deidentify_data df k salt cs = .ok (out, n)) :
    out.rows = (anonFrame g cs).rows.filter
        (fun r => decide (k ≤ classCount (anonFrame g cs).cols (anonCols cs)
          (anonFrame g cs).rows r)) ∧
      List.Sublist out.rows (anonFrame g cs).rows ∧
      (anonFrame g cs).rows.length = df.rows.length := by
  obtain ⟨g2, hg2, hcols, hrows, hn, hall⟩ := deidentify_ok_spec h
  rw [hg] at hg2
  cases hg2
  refine ⟨hrows, ?_, ?_⟩
  · rw [hrows]
    exact List.filter_sublist _
  · rw [anonFrame_length, (redactGeneralize_ok hg).1]

/-- **C1.** For every input dataset, `k ≥ 1`, salt, and non-empty selected
quasi-identifier set, every record retained by `deidentify_data` has a
generalized quasi-identifier tuple occurring at least `k` times among the
retained records, and classes are all-or-nothing: the output rows are exactly
the rows of the generalized frame whose equivalence class has size at least
`k` (so no record of a class of size `≥ k` is removed and no record of a
class of size `< k` is kept). -/
theorem deid_kanonymity {df out : Frame} {k n : Nat} {salt : String}
    {cs : List String} (hk : 1 ≤ k) (hcs : cs ≠ [])
    (h : deidentify_data df k salt cs = .ok (out, n)) :
    out.rows.all (fun r => decide (k ≤ classCount out.cols cs out.rows r)) = true ∧
      ∃ g, redactGeneralize df salt = .ok g ∧ out.cols = g.cols ∧
        out.rows = g.rows.filter
          (fun r => decide (k ≤ classCount g.cols cs g.rows r)) := by
  obtain ⟨g, hg, hcols, hrows, hn, hall⟩ := deidentify_ok_spec h
  have hne : cs.isEmpty = false := by
    cases cs with
    | nil => exact absurd rfl hcs
    | cons a l => rfl
  simp only [anonFrame, anonCols, hne, Bool.false_eq_true, if_false] at hcols hrows
  refine ⟨?_, g, hg, hcols, hrows⟩
  rw [List.all_eq_true]
  intro r hr
  rw [hrows] at hr
  obtain ⟨hrg, hkr⟩ := List.mem_filter.mp hr
  simp only [decide_eq_true_eq] at hkr ⊢
  rw [hcols, hrows, classCount_filter_self hkr]
  exact hkr

/-- **C3.** For every rectangular input dataset of `n` records and `k ≥ 1`,
when the selected quasi-identifier set is empty, `deidentify_data` treats the
whole dataset as one equivalence class: if `n ≥ k` all records are retained
and the suppression count is 0; if `n < k` all records are suppressed and the
suppression count is `n`. -/
theorem deid_empty_qi_all_or_nothing {df out : Frame} {k n : Nat}
    {salt : String} (hk : 1 ≤ k) (hwf : df.WF)
    (h : deidentify_data df k salt [] = .ok (out, n)) :
    (k ≤ df.rows.length → n = 0 ∧ out.rows.length = df.rows.length) ∧
      (df.rows.length < k → n = df.rows.length ∧ out.rows = []) := by
  obtain ⟨g, hg, hcols, hrows, hn, hall⟩ := deidentify_ok_spec h
  obtain ⟨hglen, hgwfI, _⟩ := redactGeneralize_ok hg
  have hgwf := hgwfI hwf
  simp only [anonFrame, anonCols, List.isEmpty_nil, if_true] at hcols hrows
  have hkeys := setColConst_keyTuple (c := "__dummy__") (v := Value.intV 1) hgwf
  have hcnt : ∀ r ∈ (setColConst g "__dummy__" (Value.intV 1)).rows,
      classCount (setColConst g "__dummy__" (Value.intV 1)).cols ["__dummy__"]
        (setColConst g "__dummy__" (Value.intV 1)).rows r =
        (setColConst g "__dummy__" (Value.intV 1)).rows.length :=
    classCount_const hkeys
  have hlen5 : (setColConst g "__dummy__" (Value.intV 1)).rows.length =
      df.rows.length := by
    rw [setColConst_length, hglen]
  constructor
  · intro hkle
    have hret : out.rows = (setColConst g "__dummy__" (Value.intV 1)).rows := by
      rw [hrows, List.filter_eq_self.mpr]
      intro r hr
      simp only [decide_eq_true_eq]
      rw [hcnt r hr, hlen5]
      exact hkle
    refine ⟨?_, by rw [hret, hlen5]⟩
    rw [hn, hret, hlen5, Nat.sub_self]
  · intro hklt
    have hout : out.rows = [] := by
      rw [hrows, List.filter_eq_nil_iff.mpr]
      intro r hr
      simp only [decide_eq_true_eq, not_le]
      rw [hcnt r hr, hlen5]
      exact hklt
    refine ⟨?_, hout⟩
    rw [hn, hout]
    simp

/-- **C2.** The one-way transform the pipeline applies to the `Patient_ID`
column replaces each value by the first 12 hexadecimal characters of the
SHA-256 digest of `str(value) + salt`; being the pointwise image under one
pure function of `(value, salt)`, it is deterministic: the same
`(value, salt)` always yields the same pseudonym (second conjunct: `hash_val`
literally is that function of the pair). -/
theorem deid_hash_patient_id {df df1 : Frame} {salt : String} (hwf : df.WF)
    (h : applyCol df "Patient_ID" (fun v => .ok (.strV (hash_val v salt))) =
      .ok df1) :
    df1.col "Patient_ID" =
      (df.col "Patient_ID").map
        (fun v => Value.strV ((sha256Hex (pyStr v ++ salt)).take 12)) ∧
      hash_val = fun v s => (sha256Hex (pyStr v ++ s)).take 12 := by
  obtain ⟨hc, hcols, hrel⟩ := applyCol_ok h
  refine ⟨?_, rfl⟩
  have hrows : df1.rows = df.rows.map
      (fun r => r.set (df.colIdx "Patient_ID")
        (Value.strV (hash_val (r.getD (df.colIdx "Patient_ID") (.strV "")) salt))) := by
    apply forall2_eq_map
    refine hrel.imp ?_
    intro r r2 hex
    obtain ⟨v, hv, hset⟩ := hex
    cases hv
    exact hset
  have hidx : df1.colIdx "Patient_ID" = df.colIdx "Patient_ID" := by
    unfold Frame.colIdx
    rw [hcols]
  unfold Frame.col
  rw [hrows, hidx, List.map_map, List.map_map]
  apply List.map_congr_left
  intro r hr
  have hi : df.colIdx "Patient_ID" < r.length := by
    rw [hwf r hr]
    exact colIdx_lt_length hc
  simp only [Function.comp]
  rw [getD_set_self hi]
  rfl

/-- **C7 (amended).** Generalization never increases the number of distinct
values of a generalized attribute: when the decade binning of `Age`
(respectively the 3-character prefix masking of `ZIP_Code`) succeeds on a
column, the generalized column has at most as many distinct values as the
input column.  (The strict decrease the spec asks for fails, see the
counterexample.) -/
theorem gen_distinct_nonincreasing {colA colA2 colZ colZ2 : List Value}
    (hA : mapExcept generalizeAge colA = .ok colA2)
    (hZ : mapExcept generalizeZip colZ = .ok colZ2) :
    colA2.dedup.length ≤ colA.dedup.length ∧
      colZ2.dedup.length ≤ colZ.dedup.length := by
  constructor
  · have h2 : colA2 = colA.map
        (fun v => (generalizeAge v).toOption.getD (.strV "")) := by
      apply forall2_eq_map
      refine (mapExcept_ok_forall2 hA).imp ?_
      intro a b hab
      rw [hab]
      rfl
    rw [h2]
    exact dedup_length_map_le _ _
  · have h2 : colZ2 = colZ.map
        (fun v => (generalizeZip v).toOption.getD (.strV "")) := by
      apply forall2_eq_map
      refine (mapExcept_ok_forall2 hZ).imp ?_
      intro a b hab
      rw [hab]
      rfl
    rw [h2]
    exact dedup_length_map_le _ _

/-- **C7 (counterexample).** The claimed *strict* decrease of distinct
values fails on the code: the age column `[23, 31]` has 2 distinct values,
decade binning maps it to `["20s", "30s"]`, which still has 2 distinct
values — not strictly fewer, although the input has more than one distinct
value. -/
theorem gen_strict_decrease_counterexample :
    mapExcept generalizeAge [Value.intV 23, Value.intV 31] =
        .ok [Value.strV "20s", Value.strV "30s"] ∧
      1 < ([Value.intV 23, Value.intV 31] : List Value).dedup.length ∧
      ¬ (([Value.strV "20s", Value.strV "30s"] : List Value).dedup.length <
        ([Value.intV 23, Value.intV 31] : List Value).dedup.length) :=
  ⟨rfl, by decide, by decide⟩

/-- **C10.** With an empty quasi-identifier selection the output frame of
`deidentify_data` carries an extra `__dummy__` column — absent from the
input schema — holding `1` in every retained record, while any run with a
non-empty selection produces a schema without `__dummy__`; so the two
output schemas differ. -/
theorem deid_dummy_column_schema {df out out2 : Frame} {k k2 n n2 : Nat}
    {salt salt2 : String} {cs2 : List String}
    (hwf : df.WF) (hnd : ¬ "__dummy__" ∈ df.cols)
    (h : deidentify_data df k salt [] = .ok (out, n))
    (hcs2 : cs2 ≠ [])
    (h2 : deidentify_data df k2 salt2 cs2 = .ok (out2, n2)) :
    "__dummy__" ∈ out.cols ∧
      out.rows.all (fun r =>
        decide (r.getD (out.cols.findIdx (fun x => decide (x = "__dummy__")))
          (.strV "") = Value.intV 1)) = true ∧
      ¬ "__dummy__" ∈ out2.cols := by
  obtain ⟨g, hg, hcols, hrows, _, _⟩ := deidentify_ok_spec h
  obtain ⟨_, hgwfI, hgsub⟩ := redactGeneralize_ok hg
  have hgwf := hgwfI hwf
  have hgnd : ¬ "__dummy__" ∈ g.cols := fun hm => hnd (hgsub _ hm)
  simp only [anonFrame, anonCols, List.isEmpty_nil, if_true] at hcols hrows
  have hset : setColConst g "__dummy__" (Value.intV 1) =
      ⟨g.cols ++ ["__dummy__"], g.rows.map (fun r => r ++ [Value.intV 1])⟩ := by
    unfold setColConst
    rw [if_neg]
    intro hcontra
    exact hgnd (hasCol_iff_mem.mp hcontra)
  rw [hset] at hcols hrows
  refine ⟨by rw [hcols]; simp, ?_, ?_⟩
  · rw [List.all_eq_true]
    intro r hr
    rw [hrows] at hr
    have hmem := (List.mem_filter.mp hr).1
    obtain ⟨r0, hr0, rfl⟩ := List.mem_map.mp hmem
    simp only [decide_eq_true_eq]
    rw [hcols]
    dsimp only
    rw [findIdx_concat_self_of_not_mem hgnd, ← hgwf r0 hr0, getD_concat_length]
  · obtain ⟨g2, hg2, hcols2, _, _, _⟩ := deidentify_ok_spec h2
    have hne : cs2.isEmpty = false := by
      cases cs2 with
      | nil => exact absurd rfl hcs2
      | cons a l => rfl
    simp only [anonFrame, hne, Bool.false_eq_true, if_false] at hcols2
    obtain ⟨_, _, hgsub2⟩ := redactGeneralize_ok hg2
    rw [hcols2]
    exact fun hm => hnd (hgsub2 _ hm)

/-!
### Heap-level model for the mutation claim

Python statement semantics for the body of `deidentify_data`: dataframes are
heap-allocated objects addressed by references; `df.copy()` allocates a fresh
object with the same contents; `df_clean[col] = series` mutates in place the
object the local variable `df_clean` points to; `df.drop(...)` and
boolean-mask selection allocate new objects and rebind the local variable.
The heap is a list of frames addressed by index; a raised error propagates
out but leaves the heap (hence any mutation performed so far) in place, so
the result is the final heap together with either the error or the returned
reference and suppression count.
-/

def emptyFrame : Frame := ⟨[], []⟩

/-- Statement-by-statement heap semantics of `deidentify_data(df, k, salt,
cols_to_check)` called on the frame at `dfRef`. -/
def pyDeidentify (heap : List Frame) (dfRef : Nat) (k : Nat) (salt : String)
    (cols_to_check : List String) : List Frame × Except PdError (Nat × Nat) :=
  let df := heap.getD dfRef emptyFrame
  let r1 := heap.length
  let h1 := heap ++ [df]
  match applyCol (h1.getD r1 emptyFrame) "Patient_ID"
      (fun v => .ok (.strV (hash_val v salt))) with
  | .error e => (h1, .error e)
  | .ok f1 =>
    let h2 := h1.set r1 f1
    match dropCol (h2.getD r1 emptyFrame) "Patient_Name" with
    | .error e => (h2, .error e)
    | .ok f2 =>
      let r2 := h2.length
      let h3 := h2 ++ [f2]
      match applyCol (h3.getD r2 emptyFrame) "Age" generalizeAge with
      | .error e => (h3, .error e)
      | .ok f3 =>
        let h4 := h3.set r2 f3
        match applyCol (h4.getD r2 emptyFrame) "ZIP_Code" generalizeZip with
        | .error e => (h4, .error e)
        | .ok f4 =>
          let h5 := h4.set r2 f4
          let h6 := if cols_to_check.isEmpty then
              h5.set r2 (setColConst (h5.getD r2 emptyFrame) "__dummy__" (.intV 1))
            else h5
          match groupCounts (h6.getD r2 emptyFrame) (anonCols cols_to_check) with
          | .error e => (h6, .error e)
          | .ok counts =>
            let f5 := h6.getD r2 emptyFrame
            let kept := ((f5.rows.zip counts).filter
              (fun rc => decide (k ≤ rc.2))).map Prod.fst
            let h7 := h6 ++ [⟨f5.cols, kept⟩]
            (h7, .ok (h6.length, df.rows.length - kept.length))

/-- **C9.** `deidentify_data` never mutates its input: whether the call
returns or raises, the input frame's heap cell is untouched — every write
goes to the fresh copy or to freshly allocated result objects. -/
theorem deid_no_input_mutation {heap : List Frame} {dfRef k : Nat}
    {salt : String} {cs : List String} (hlt : dfRef < heap.length) :
    (pyDeidentify heap dfRef k salt cs).1.getD dfRef emptyFrame =
      heap.getD dfRef emptyFrame := by
  unfold pyDeidentify
  dsimp only
  repeat' split
  all_goals
    simp only [List.getD_eq_getElem?_getD, List.getElem?_set,
      List.getElem?_append, List.length_set, List.length_append,
      List.length_cons, List.length_nil]
  all_goals split_ifs <;> first | rfl | omega

/-!
### Concrete evaluations

Known-answer validation of the SHA-256 embedding (FIPS 180-4 test vectors)
and closed witnesses instantiating each theorem above on small concrete
datasets.
-/

set_option maxRecDepth 20000

theorem sha256Hex_empty_vector :
    sha256Hex "" =
      "e3b0c44298fc1c149afbf4c8996fb92427ae41e4649b934ca495991b7852b855" := by
  rfl

theorem sha256Hex_abc_vector :
    sha256Hex "abc" =
      "ba7816bf8f01cfea414140de5dae2223b00361a396177a9cb410ff61f20015ad" := by
  rfl

/-- Concrete two-record dataset used by the witnesses: ages 23 and 25 share
the "20s" bin, so at `k = 2` grouped on `Age` both records are retained. -/
def wDf : Frame :=
  ⟨["Patient_Name", "Patient_ID", "Age", "ZIP_Code"],
   [[.strV "A", .strV "p1", .intV 23, .strV "12345"],
    [.strV "B", .strV "p2", .intV 25, .strV "12346"]]⟩

def wRes2 : Frame × Nat :=
  (deidentify_data wDf 2 "s" ["Age"]).toOption.getD (emptyFrame, 0)

def wRes1 : Frame × Nat :=
  (deidentify_data wDf 1 "s" ["Age"]).toOption.getD (emptyFrame, 0)

def wResEmptyQi : Frame × Nat :=
  (deidentify_data wDf 2 "s" []).toOption.getD (emptyFrame, 0)

def wG : Frame := (redactGeneralize wDf "s").toOption.getD emptyFrame

def wHashed : Frame :=
  (applyCol wDf "Patient_ID"
    (fun v => .ok (.strV (hash_val v "s")))).toOption.getD emptyFrame

def wBad : Frame := ⟨["Age"], []⟩

theorem deid_kanonymity_witness :
    deidentify_data wDf 2 "s" ["Age"] = .ok (wRes2.1, wRes2.2) ∧
      wRes2.1.rows.all
        (fun r => decide (2 ≤ classCount wRes2.1.cols ["Age"] wRes2.1.rows r)) =
        true := by
  have h : deidentify_data wDf 2 "s" ["Age"] = .ok (wRes2.1, wRes2.2) := rfl
  exact ⟨h, (deid_kanonymity (by decide) (by decide) h).1⟩

theorem deid_hash_patient_id_witness :
    wDf.WF ∧
      applyCol wDf "Patient_ID" (fun v => .ok (.strV (hash_val v "s"))) =
        .ok wHashed ∧
      wHashed.col "Patient_ID" =
        (wDf.col "Patient_ID").map
          (fun v => Value.strV ((sha256Hex (pyStr v ++ "s")).take 12)) := by
  have hwf : wDf.WF := by decide
  have h : applyCol wDf "Patient_ID" (fun v => .ok (.strV (hash_val v "s"))) =
      .ok wHashed := rfl
  exact ⟨hwf, h, (deid_hash_patient_id hwf h).1⟩

theorem deid_empty_qi_all_or_nothing_witness :
    deidentify_data wDf 2 "s" [] = .ok (wResEmptyQi.1, wResEmptyQi.2) ∧
      (2 ≤ wDf.rows.length →
        wResEmptyQi.2 = 0 ∧ wResEmptyQi.1.rows.length = wDf.rows.length) ∧
      (wDf.rows.length < 2 →
        wResEmptyQi.2 = wDf.rows.length ∧ wResEmptyQi.1.rows = []) := by
  have h : deidentify_data wDf 2 "s" [] = .ok (wResEmptyQi.1, wResEmptyQi.2) :=
    rfl
  have t := deid_empty_qi_all_or_nothing (by decide) (by decide) h
  exact ⟨h, t.1, t.2⟩

theorem deid_suppression_monotone_witness :
    deidentify_data wDf 1 "s" ["Age"] = .ok (wRes1.1, wRes1.2) ∧
      deidentify_data wDf 2 "s" ["Age"] = .ok (wRes2.1, wRes2.2) ∧
      wRes1.2 ≤ wRes2.2 := by
  have h1 : deidentify_data wDf 1 "s" ["Age"] = .ok (wRes1.1, wRes1.2) := rfl
  have h2 : deidentify_data wDf 2 "s" ["Age"] = .ok (wRes2.1, wRes2.2) := rfl
  exact ⟨h1, h2, deid_suppression_monotone (by decide) h1 h2⟩

theorem deid_k_one_retains_all_witness :
    deidentify_data wDf 1 "s" ["Age"] = .ok (wRes1.1, wRes1.2) ∧
      wRes1.2 = 0 ∧ wRes1.1.rows.length = wDf.rows.length := by
  have h : deidentify_data wDf 1 "s" ["Age"] = .ok (wRes1.1, wRes1.2) := rfl
  have t := deid_k_one_retains_all h
  exact ⟨h, t.1, t.2⟩

theorem deid_missing_direct_identifier_error_witness :
    (wBad.hasCol "Patient_ID" = false ∨ wBad.hasCol "Patient_Name" = false) ∧
      (deidentify_data wBad 2 "s" [] = .error (.keyError "Patient_ID") ∨
        deidentify_data wBad 2 "s" [] = .error (.keyError "Patient_Name")) := by
  have h : wBad.hasCol "Patient_ID" = false ∨ wBad.hasCol "Patient_Name" = false :=
    Or.inl (by decide)
  exact ⟨h, deid_missing_direct_identifier_error h⟩

theorem gen_distinct_nonincreasing_witness :
    mapExcept generalizeAge [Value.intV 23, Value.intV 31] =
        .ok [Value.strV "20s", Value.strV "30s"] ∧
      mapExcept generalizeZip [Value.strV "12345"] =
        .ok [Value.strV "123**"] ∧
      ([Value.strV "20s", Value.strV "30s"] : List Value).dedup.length ≤
        ([Value.intV 23, Value.intV 31] : List Value).dedup.length ∧
      ([Value.strV "123**"] : List Value).dedup.length ≤
        ([Value.strV "12345"] : List Value).dedup.length := by
  have hA : mapExcept generalizeAge [Value.intV 23, Value.intV 31] =
      .ok [Value.strV "20s", Value.strV "30s"] := rfl
  have hZ : mapExcept generalizeZip [Value.strV "12345"] =
      .ok [Value.strV "123**"] := rfl
  have t := gen_distinct_nonincreasing hA hZ
  exact ⟨hA, hZ, t.1, t.2⟩

theorem deid_stable_filter_order_witness :
    redactGeneralize wDf "s" = .ok wG ∧
      deidentify_data wDf 2 "s" ["Age"] = .ok (wRes2.1, wRes2.2) ∧
      List.Sublist wRes2.1.rows (anonFrame wG ["Age"]).rows ∧
      (anonFrame wG ["Age"]).rows.length = wDf.rows.length := by
  have hg : redactGeneralize wDf "s" = .ok wG := rfl
  have h : deidentify_data wDf 2 "s" ["Age"] = .ok (wRes2.1, wRes2.2) := rfl
  have t := deid_stable_filter_order hg h
  exact ⟨hg, h, t.2.1, t.2.2⟩

theorem deid_no_input_mutation_witness :
    (pyDeidentify [wDf] 0 2 "s" ["Age"]).1.getD 0 emptyFrame =
      [wDf].getD 0 emptyFrame := by
  exact deid_no_input_mutation (by decide)

theorem deid_dummy_column_schema_witness :
    wDf.WF ∧ ¬ "__dummy__" ∈ wDf.cols ∧
      deidentify_data wDf 2 "s" [] = .ok (wResEmptyQi.1, wResEmptyQi.2) ∧
      deidentify_data wDf 2 "s" ["Age"] = .ok (wRes2.1, wRes2.2) ∧
      "__dummy__" ∈ wResEmptyQi.1.cols ∧
      wResEmptyQi.1.rows.all (fun r =>
        decide (r.getD
          (wResEmptyQi.1.cols.findIdx (fun x => decide (x = "__dummy__")))
          (.strV "") = Value.intV 1)) = true ∧
      ¬ "__dummy__" ∈ wRes2.1.cols := by
  have hwf : wDf.WF := by decide
  have hnd : ¬ "__dummy__" ∈ wDf.cols := by decide
  have h : deidentify_data wDf 2 "s" [] = .ok (wResEmptyQi.1, wResEmptyQi.2) :=
    rfl
  have h2 : deidentify_data wDf 2 "s" ["Age"] = .ok (wRes2.1, wRes2.2) := rfl
  have t := deid_dummy_column_schema hwf hnd h (by decide) h2
  exact ⟨hwf, hnd, h, h2, t.1, t.2.1, t.2.2⟩

